import Mathlib

/-!
# Verification of the `sprite_animation` example (amethyst)

Shallow embedding of `examples/sprite_animation/main.rs`: a two-state
application lifecycle (a `Loading` state polling a progress counter, then
an `Example` running state that spawns a camera entity and a scene entity
and starts the `Fly` animation on every entity carrying an animation set).

The ECS world is embedded as association lists (entity id ↦ component),
with entity ids allocated from a counter; machine floats that are merely
stored and passed through (playback rate, projection bounds, translation)
are embedded as rationals.  Panics (`unwrap`, `expect`) are embedded as
`Except` errors tagged with the panic site.
-/

namespace SpriteAnimation

/-- Animation ids used in a AnimationSet (`enum AnimationId { Fly }`). -/
inductive AnimationId where
  | Fly
deriving DecidableEq, Repr

/-- Asset handles (`Handle<Prefab<MyPrefabData>>`, `Handle<Animation<_>>`)
are opaque reference-counted ids; embedded as `Nat`. -/
abbrev Handle : Type := Nat

/-- Modelled from the spec: the Animation Set component, a per-entity
mapping from animation identifier to clip data (`AnimationSet<I, T>` of the
animation crate, absent from the supplied source). -/
structure AnimationSet where
  animations : List (AnimationId × Handle)
deriving DecidableEq, Repr

/-- Embeds `AnimationSet::get(&id)`: look up the clip handle keyed by `id`. -/
def AnimationSet.get (s : AnimationSet) (id : AnimationId) : Option Handle :=
  s.animations.lookup id

/-- Modelled from the spec: end behavior of a playing animation; the
example only uses `EndControl::Loop(None)` (loop forever). -/
inductive EndControl where
  | loop (times : Option Nat)
  | normal
deriving DecidableEq, Repr

/-- Modelled from the spec: the command issued for an animation; the
example only issues `AnimationCommand::Start`. -/
inductive AnimationCommand where
  | start
  | pause
  | abort
deriving DecidableEq, Repr

/-- Modelled from the spec: one entry of an Animation Control Set —
which animation is playing, its end behavior and playback rate. -/
structure AnimationControl where
  id : AnimationId
  animation : Handle
  end_control : EndControl
  rate_multiplier : Rat
  command : AnimationCommand
deriving DecidableEq, Repr

/-- Modelled from the spec: the Animation Control Set component, the
per-entity mutable record of currently playing animations, created lazily
on first access per entity. -/
structure AnimationControlSet where
  animations : List AnimationControl
deriving DecidableEq, Repr

/-- The empty control set (lazy creation inserts this default). -/
def AnimationControlSet.empty : AnimationControlSet := ⟨[]⟩

/-- Modelled from the spec: `AnimationControlSet::add_animation` starts the
given clip under key `id` with the given end behavior, rate and command;
an id that is already present in the set is left untouched. -/
def AnimationControlSet.add_animation (cs : AnimationControlSet)
    (id : AnimationId) (animation : Handle) (end_control : EndControl)
    (rate_multiplier : Rat) (command : AnimationCommand) :
    AnimationControlSet :=
  if cs.animations.any (fun c => c.id = id) then cs
  else ⟨cs.animations ++ [⟨id, animation, end_control, rate_multiplier, command⟩]⟩

/-- Modelled from the spec: the Progress Tracker, a counter of outstanding
asynchronous load operations (`ProgressCounter`). -/
structure ProgressCounter where
  outstanding : Nat
deriving DecidableEq, Repr

/-- Embeds `ProgressCounter::is_complete`: no outstanding load operations. -/
def ProgressCounter.is_complete (p : ProgressCounter) : Bool :=
  p.outstanding = 0

/-- Modelled from the spec: current viewport size (`ScreenDimensions`). -/
structure ScreenDimensions where
  width : Rat
  height : Rat
deriving DecidableEq, Repr

/-- Modelled from the spec: a camera projection; the example only builds
`Projection::orthographic(left, right, bottom, top)`. -/
inductive Projection where
  | orthographic (left right bottom top : Rat)
deriving DecidableEq, Repr

/-- The camera component, wrapping its projection (`Camera::from`). -/
structure Camera where
  projection : Projection
deriving DecidableEq, Repr

/-- Embeds `Camera::from(projection)`. -/
def Camera.from (p : Projection) : Camera := ⟨p⟩

/-- Modelled from the spec: the transform component; only the translation
is relevant to this example (`Transform::default`, `set_translation_z`). -/
structure Transform where
  translation_x : Rat
  translation_y : Rat
  translation_z : Rat
deriving DecidableEq, Repr

/-- Embeds `Transform::default()`: zero translation. -/
def Transform.default : Transform := ⟨0, 0, 0⟩

/-- Embeds `Transform::set_translation_z(z)`. -/
def Transform.set_translation_z (t : Transform) (z : Rat) : Transform :=
  { t with translation_z := z }

/-- The ECS world, embedded as one component table per component type used
by the example, keyed by entity id.  Entity ids are allocated from
`nextEntity`; an id is a live entity iff it is below `nextEntity`
(the example never deletes entities). -/
structure World where
  nextEntity : Nat
  transforms : List (Nat × Transform)
  cameras : List (Nat × Camera)
  prefab_handles : List (Nat × Handle)
  animation_sets : List (Nat × AnimationSet)
  control_sets : List (Nat × AnimationControlSet)
  dims : ScreenDimensions
deriving Repr

/-- An entity id is live iff it has been allocated. -/
def World.isAlive (w : World) (e : Nat) : Bool :=
  e < w.nextEntity

/-- Embeds `world.create_entity()...build()`: allocate a fresh entity id. -/
def World.newEntity (w : World) : Nat × World :=
  (w.nextEntity, { w with nextEntity := w.nextEntity + 1 })

/-- Panic sites of the example (`expect` / `unwrap` calls). -/
inductive Panic where
  /-- Site `self.prefab_handle.as_ref().expect("Failed to load prefab data.")` -/
  | expectPrefabHandle
  /-- Site `get_animation_set(&mut control_sets, entity).unwrap()` -/
  | controlSetUnwrap
  /-- Site `animation_set.get(&AnimationId::Fly).unwrap()` -/
  | clipUnwrap
deriving DecidableEq, Repr

/-- The running state (`struct Example`), holding the loaded prefab
handle. -/
structure Example where
  prefab_handle : Handle
deriving DecidableEq, Repr

/-- The transition decisions this example returns (`SimpleTrans`); only
`Trans::None` and `Trans::Switch(Box::new(Example {..}))` occur. -/
inductive SimpleTrans where
  | none
  | switch (next : Example)
deriving DecidableEq, Repr

/-- The loading state (`struct Loading`): a progress tracker and the
pending prefab handle slot. -/
structure Loading where
  progress_counter : ProgressCounter
  prefab_handle : Option Handle
deriving DecidableEq, Repr

/-- Embeds `Loading::default()`. -/
def Loading.default : Loading := ⟨⟨0⟩, none⟩

/-- Embeds `Loading::on_start`: issues the single prefab load request (the
asynchronous loader, an external collaborator, will produce handle `h`
and registers one outstanding operation with the progress counter) and
stores the resulting handle.  The world is not touched: no entity is
created here. -/
def Loading.on_start (s : Loading) (w : World) (h : Handle) :
    Loading × World :=
  ({ progress_counter := ⟨s.progress_counter.outstanding + 1⟩,
     prefab_handle := some h }, w)

/-- Embeds `Loading::update`: if the progress counter reports completion, switch
to the running state carrying the stored handle (panicking via `expect` if
the handle was never stored); otherwise no transition. -/
def Loading.update (s : Loading) : Except Panic SimpleTrans :=
  if s.progress_counter.is_complete then
    match s.prefab_handle with
    | some h => .ok (.switch ⟨h⟩)
    | none => .error .expectPrefabHandle
  else
    .ok .none

/-- Embeds `initialise_camera`: reads the viewport dimensions, builds a default
transform at depth `z = 1.0` and an orthographic projection with bounds
`[0, width] × [0, height]`, and creates one entity carrying both. -/
def initialise_camera (w : World) : World :=
  let width := w.dims.width
  let height := w.dims.height
  let camera_transform := Transform.default.set_translation_z 1
  let (e, w1) := w.newEntity
  { w1 with
    transforms := (e, camera_transform) :: w1.transforms,
    cameras :=
      (e, Camera.from (Projection.orthographic 0 width 0 height)) ::
        w1.cameras }

/-- Modelled from the spec: `get_animation_set` of the animation crate
(absent from the supplied source) obtains or lazily creates the Animation
Control Set of `entity`; it fails only when the entity is not live. -/
def get_animation_set (nextEntity : Nat)
    (control_sets : List (Nat × AnimationControlSet)) (entity : Nat) :
    Option AnimationControlSet :=
  if entity < nextEntity then
    some ((control_sets.lookup entity).getD AnimationControlSet.empty)
  else
    none

/-- Store `entity`'s control set back into the component table. -/
def insertControlSet (control_sets : List (Nat × AnimationControlSet))
    (entity : Nat) (cs : AnimationControlSet) :
    List (Nat × AnimationControlSet) :=
  (entity, cs) :: control_sets.filter (fun p => p.1 ≠ entity)

/-- The join `(&entities, &animation_sets).join()`: all live entities
carrying an Animation Set component, with their sets. -/
def World.joinAnimated (w : World) : List (Nat × AnimationSet) :=
  w.animation_sets.filter (fun p => p.1 < w.nextEntity)

/-- The body of the animation-start pass, iterating over the joined
entities: obtain or create the entity's control set (`unwrap`), look up
the `Fly` clip (`unwrap`), and add it looping forever at rate `1.0` with a
`Start` command. -/
def runPass (nextEntity : Nat) :
    List (Nat × AnimationSet) → List (Nat × AnimationControlSet) →
    Except Panic (List (Nat × AnimationControlSet))
  | [], control_sets => .ok control_sets
  | (entity, animation_set) :: rest, control_sets =>
    match get_animation_set nextEntity control_sets entity with
    | none => .error .controlSetUnwrap
    | some control_set =>
      match animation_set.get AnimationId.Fly with
      | none => .error .clipUnwrap
      | some clip =>
        runPass nextEntity rest
          (insertControlSet control_sets entity
            (control_set.add_animation AnimationId.Fly clip
              (EndControl.loop none) 1 AnimationCommand.start))

/-- The `world.exec` animation-start pass of `Example::on_start`. -/
def animationStartPass (w : World) : Except Panic World :=
  (runPass w.nextEntity w.joinAnimated w.control_sets).map
    (fun cs => { w with control_sets := cs })

/-- Embeds `Example::on_start`: create the camera entity, create the scene entity
carrying the prefab handle, then run the animation-start pass. -/
def Example.on_start (s : Example) (w : World) : Except Panic World :=
  let w1 := initialise_camera w
  let (e, w2) := w1.newEntity
  let w3 := { w2 with prefab_handles := (e, s.prefab_handle) :: w2.prefab_handles }
  animationStartPass w3

/-- Embeds `Example::update`: remain in main state forever (`Trans::None`). -/
def Example.update (_s : Example) : SimpleTrans :=
  .none

/-- The loading-phase trace: after `Loading::on_start` captured handle `h`,
the decision returned by `Loading::update` at tick `n`, where `outs n` is
the number of outstanding load operations the asynchronous loader leaves
in the progress counter at tick `n`.  `Loading::update` itself never
mutates the state, so the handle slot still holds `h` at every tick. -/
def loadingDecisionAt (s0 : Loading) (w0 : World) (h : Handle)
    (outs : Nat → Nat) (n : Nat) : Except Panic SimpleTrans :=
  Loading.update
    { (s0.on_start w0 h).1 with progress_counter := ⟨outs n⟩ }

/-- The state-machine view: the application is either loading or running
(`Loading --(progress complete)--> Example`). -/
inductive AppState where
  | loading (s : Loading)
  | running (e : Example)
deriving DecidableEq, Repr

/-- Apply a transition decision of the running state to the state machine:
`Trans::None` stays, `Trans::Switch` replaces the state. -/
def applyTrans (st : AppState) (t : SimpleTrans) : AppState :=
  match t with
  | .none => st
  | .switch e => .running e

/-- One tick of the state machine once it is in the running state. -/
def runningStep (st : AppState) : AppState :=
  match st with
  | .running e => applyTrans st (Example.update e)
  | other => other

/-- A concrete world used to exercise the theorems: one live entity
(id `0`) carrying an animation set with a `Fly` clip, no camera, no scene
entity, empty control sets, an 800×600 viewport. -/
def exampleWorld : World :=
  { nextEntity := 1,
    transforms := [],
    cameras := [],
    prefab_handles := [],
    animation_sets := [(0, ⟨[(AnimationId.Fly, 7)]⟩)],
    control_sets := [],
    dims := ⟨800, 600⟩ }

/-- A concrete world whose only animated entity has no `Fly` clip. -/
def noFlyWorld : World :=
  { exampleWorld with animation_sets := [(0, ⟨[]⟩)] }

/-- The control entry the pass creates for the `Fly` clip of
`exampleWorld`'s animated entity. -/
def flyControl : AnimationControl :=
  ⟨AnimationId.Fly, 7, EndControl.loop none, 1, AnimationCommand.start⟩

/-- The world `exampleWorld` after `Example::on_start` with prefab handle
`42`: camera entity `1`, scene entity `2`, and the `Fly` animation started
on entity `0`. -/
def exampleWorldAfter : World :=
  { nextEntity := 3,
    transforms := [(1, ⟨0, 0, 1⟩)],
    cameras := [(1, ⟨Projection.orthographic 0 800 0 600⟩)],
    prefab_handles := [(2, 42)],
    animation_sets := [(0, ⟨[(AnimationId.Fly, 7)]⟩)],
    control_sets := [(0, ⟨[flyControl]⟩)],
    dims := ⟨800, 600⟩ }

/-- The world `exampleWorld` after the animation-start pass alone. -/
def examplePassWorld : World :=
  { exampleWorld with control_sets := [(0, ⟨[flyControl]⟩)] }

section Lemmas

/-- Filtering out another key does not change a lookup. -/
theorem lookup_filter_ne {β : Type} (e e' : Nat) (h : e ≠ e') :
    ∀ (l : List (Nat × β)),
      (l.filter (fun p => p.1 ≠ e')).lookup e = l.lookup e := by
  intro l
  induction l with
  | nil => simp
  | cons p rest ih =>
    obtain ⟨k, b⟩ := p
    simp only [ne_eq, decide_not] at ih ⊢
    by_cases hk : k = e'
    · subst hk
      simp [List.filter, List.lookup_cons, beq_false_of_ne h, ih]
    · by_cases he : e = k
      · subst he
        simp [List.filter, List.lookup_cons, hk]
      · simp [List.filter, List.lookup_cons, beq_false_of_ne he, hk, ih]

/-- A key with an entry in an association list has a successful lookup. -/
theorem mem_lookup_isSome {β : Type} (e : Nat) (b : β) :
    ∀ (l : List (Nat × β)), (e, b) ∈ l → (l.lookup e).isSome := by
  intro l
  induction l with
  | nil => simp
  | cons p rest ih =>
    obtain ⟨k, v⟩ := p
    intro hmem
    by_cases he : e = k
    · subst he; simp [List.lookup_cons]
    · rcases List.mem_cons.mp hmem with heq | htail
      · exact absurd (congrArg Prod.fst heq) he
      · simpa [List.lookup_cons, beq_false_of_ne he] using ih htail

/-- Storing a control set makes it the one found for its entity. -/
theorem lookup_insertControlSet_self
    (cs : List (Nat × AnimationControlSet)) (e : Nat)
    (c : AnimationControlSet) :
    (insertControlSet cs e c).lookup e = some c := by
  simp [insertControlSet, List.lookup_cons]

/-- Storing a control set for another entity does not change a lookup. -/
theorem lookup_insertControlSet_ne
    (cs : List (Nat × AnimationControlSet)) {e e' : Nat}
    (c : AnimationControlSet) (h : e ≠ e') :
    (insertControlSet cs e' c).lookup e = cs.lookup e := by
  simp only [insertControlSet, List.lookup_cons, beq_false_of_ne h]
  exact lookup_filter_ne e e' h cs

/-- The pass leaves the control sets of entities outside the joined list
untouched. -/
theorem runPass_preserve (nextE : Nat) :
    ∀ (L : List (Nat × AnimationSet))
      (cs cs' : List (Nat × AnimationControlSet)),
      runPass nextE L cs = Except.ok cs' →
      ∀ e, e ∉ L.map Prod.fst → cs'.lookup e = cs.lookup e := by
  intro L
  induction L with
  | nil =>
    intro cs cs' h e _
    simp only [runPass, Except.ok.injEq] at h
    rw [h]
  | cons p rest ih =>
    obtain ⟨e', aset'⟩ := p
    intro cs cs' h e hnot
    simp only [List.map_cons, List.mem_cons, not_or] at hnot
    simp only [runPass] at h
    split at h
    · exact absurd h (by simp)
    · split at h
      · exact absurd h (by simp)
      · exact (ih _ _ h e hnot.2).trans
          (lookup_insertControlSet_ne _ _ hnot.1)

/-- The join only yields live entities. -/
theorem joinAnimated_keys_lt (w : World) :
    ∀ p ∈ w.joinAnimated, p.1 < w.nextEntity := by
  intro p hp
  have := (List.mem_filter.mp hp).2
  simpa using this

/-- Membership in the join is membership in the animation-set table for a
live entity. -/
theorem mem_joinAnimated {w : World} {e : Nat} {aset : AnimationSet} :
    (e, aset) ∈ w.joinAnimated ↔
      (e, aset) ∈ w.animation_sets ∧ e < w.nextEntity := by
  simp [World.joinAnimated, List.mem_filter]

/-- When every entry of the animation-set table is live, the join is the
whole table. -/
theorem joinAnimated_eq_self {w : World}
    (hwf : ∀ p ∈ w.animation_sets, p.1 < w.nextEntity) :
    w.joinAnimated = w.animation_sets := by
  exact List.filter_eq_self.mpr (fun p hp => by simpa using hwf p hp)

/-- If every joined entity is live, `get_animation_set` always succeeds,
so the pass can only fail at the clip lookup. -/
theorem runPass_ne_controlSetUnwrap (nextE : Nat) :
    ∀ (L : List (Nat × AnimationSet))
      (cs : List (Nat × AnimationControlSet)),
      (∀ p ∈ L, p.1 < nextE) →
      runPass nextE L cs ≠ Except.error Panic.controlSetUnwrap := by
  intro L
  induction L with
  | nil => intro cs _ h; simp [runPass] at h
  | cons p rest ih =>
    obtain ⟨e', aset'⟩ := p
    intro cs hall h
    have he' : e' < nextE := hall (e', aset') (List.mem_cons_self _ _)
    simp only [runPass, get_animation_set, if_pos he'] at h
    split at h
    · exact Panic.noConfusion (Except.error.inj h)
    · exact ih _ (fun q hq => hall q (List.mem_cons_of_mem _ hq)) h

/-- If some joined entity's animation set has no `Fly` clip, the pass
panics at the clip `unwrap`. -/
theorem runPass_clip_missing (nextE : Nat) :
    ∀ (L : List (Nat × AnimationSet))
      (cs : List (Nat × AnimationControlSet)),
      (∀ p ∈ L, p.1 < nextE) →
      ∀ e aset, (e, aset) ∈ L → aset.get AnimationId.Fly = none →
        runPass nextE L cs = Except.error Panic.clipUnwrap := by
  intro L
  induction L with
  | nil => intro cs _ e aset hmem _; simp at hmem
  | cons p rest ih =>
    obtain ⟨e', aset'⟩ := p
    intro cs hall e aset hmem hmiss
    have he' : e' < nextE := hall (e', aset') (List.mem_cons_self _ _)
    simp only [runPass, get_animation_set, if_pos he']
    cases hclip : aset'.get AnimationId.Fly with
    | none => rfl
    | some clip =>
      rcases List.mem_cons.mp hmem with heq | htail
      · have : aset = aset' := congrArg Prod.snd heq
        rw [this, hclip] at hmiss
        exact Option.noConfusion hmiss
      · exact ih _ (fun q hq => hall q (List.mem_cons_of_mem _ hq))
          e aset htail hmiss

/-- Main invariant of the pass: an entity joined with animation set
`aset`, whose control set is absent beforehand, ends with a control set
holding exactly one animation — `Fly`'s clip, looping forever, at rate
`1`, with a `Start` command. -/
theorem runPass_lookup (nextE : Nat) :
    ∀ (L : List (Nat × AnimationSet))
      (cs cs' : List (Nat × AnimationControlSet)),
      (L.map Prod.fst).Nodup →
      runPass nextE L cs = Except.ok cs' →
      ∀ e aset, (e, aset) ∈ L → cs.lookup e = none →
        ∃ clip, aset.get AnimationId.Fly = some clip ∧
          cs'.lookup e = some ⟨[⟨AnimationId.Fly, clip,
            EndControl.loop none, 1, AnimationCommand.start⟩]⟩ := by
  intro L
  induction L with
  | nil => intro cs cs' _ _ e aset hmem; simp at hmem
  | cons p rest ih =>
    obtain ⟨e', aset'⟩ := p
    intro cs cs' hnd h e aset hmem hnone
    have hnd' : e' ∉ rest.map Prod.fst ∧ (rest.map Prod.fst).Nodup :=
      List.nodup_cons.mp (by rw [List.map_cons] at hnd; exact hnd)
    by_cases he'lt : e' < nextE
    · simp only [runPass, get_animation_set, if_pos he'lt] at h
      cases hclip : aset'.get AnimationId.Fly with
      | none => rw [hclip] at h; exact absurd h (by simp)
      | some clip' =>
        rw [hclip] at h
        rcases List.mem_cons.mp hmem with heq | htail
        · have he : e = e' := congrArg Prod.fst heq
          have ha : aset = aset' := congrArg Prod.snd heq
          subst he; subst ha
          rw [hnone] at h
          have hadded :
              (AnimationControlSet.empty.add_animation AnimationId.Fly
                clip' (EndControl.loop none) 1 AnimationCommand.start) =
              ⟨[⟨AnimationId.Fly, clip', EndControl.loop none, 1,
                AnimationCommand.start⟩]⟩ := rfl
          refine ⟨clip', hclip ▸ rfl, ?_⟩
          have hpres := runPass_preserve nextE rest _ _ h e hnd'.1
          rw [hpres]
          simpa [hadded] using
            lookup_insertControlSet_self cs e
              (AnimationControlSet.empty.add_animation AnimationId.Fly
                clip' (EndControl.loop none) 1 AnimationCommand.start)
        · have hne : e ≠ e' := by
            intro hcontra
            exact hnd'.1 (hcontra ▸ List.mem_map_of_mem Prod.fst htail)
          have hnone' :
              (insertControlSet cs e'
                (((cs.lookup e').getD
                  AnimationControlSet.empty).add_animation AnimationId.Fly
                  clip' (EndControl.loop none) 1
                  AnimationCommand.start)).lookup e = none := by
            rw [lookup_insertControlSet_ne _ _ hne]; exact hnone
          exact ih _ _ hnd'.2 h e aset htail hnone'
    · exfalso
      simp only [runPass, get_animation_set, if_neg he'lt] at h
      exact absurd h (by simp)

/-- Destructor for a successful pass: the control-set table is the pass
result and every other world field is unchanged. -/
theorem animationStartPass_ok_elim {w w' : World}
    (h : animationStartPass w = Except.ok w') :
    runPass w.nextEntity w.joinAnimated w.control_sets =
      Except.ok w'.control_sets ∧
    w'.nextEntity = w.nextEntity ∧ w'.transforms = w.transforms ∧
    w'.cameras = w.cameras ∧ w'.prefab_handles = w.prefab_handles ∧
    w'.animation_sets = w.animation_sets ∧ w'.dims = w.dims := by
  cases hr : runPass w.nextEntity w.joinAnimated w.control_sets with
  | error p => simp [animationStartPass, hr, Except.map] at h
  | ok cs =>
    have h' : { w with control_sets := cs } = w' := by
      simpa [animationStartPass, hr, Except.map] using h
    subst h'
    refine ⟨?_, rfl, rfl, rfl, rfl, rfl, rfl⟩
    simp [hr]

/-- Unfolds `Example::on_start` into the after-setup world fed to the
animation-start pass: the camera entity, then the scene entity. -/
theorem on_start_eq (s : Example) (w : World) :
    Example.on_start s w = animationStartPass
      { nextEntity := w.nextEntity + 2,
        transforms :=
          (w.nextEntity, Transform.default.set_translation_z 1) ::
            w.transforms,
        cameras :=
          (w.nextEntity,
            Camera.from
              (Projection.orthographic 0 w.dims.width 0 w.dims.height)) ::
            w.cameras,
        prefab_handles :=
          (w.nextEntity + 1, s.prefab_handle) :: w.prefab_handles,
        animation_sets := w.animation_sets,
        control_sets := w.control_sets,
        dims := w.dims } := rfl

/-- Pass-level form of the animation-start property: on a world whose
animation-set table is well-formed (live, duplicate-free keys) and whose
control-set table is empty, a successful pass leaves every animated entity
with a control set holding exactly the started `Fly` entry. -/
theorem animationStartPass_starts_all {w w' : World}
    (hwf : ∀ p ∈ w.animation_sets, p.1 < w.nextEntity)
    (hnd : (w.animation_sets.map Prod.fst).Nodup)
    (hcs : w.control_sets = [])
    (hok : animationStartPass w = Except.ok w') :
    ∀ e aset, (e, aset) ∈ w'.animation_sets →
      ∃ clip, aset.get AnimationId.Fly = some clip ∧
        w'.control_sets.lookup e =
          some ⟨[⟨AnimationId.Fly, clip, EndControl.loop none, 1,
            AnimationCommand.start⟩]⟩ := by
  obtain ⟨hr, -, -, -, -, has, -⟩ := animationStartPass_ok_elim hok
  intro e aset hmem
  rw [has] at hmem
  rw [joinAnimated_eq_self hwf] at hr
  have hnone : w.control_sets.lookup e = none := by rw [hcs]; rfl
  exact runPass_lookup w.nextEntity w.animation_sets w.control_sets
    w'.control_sets hnd hr e aset hmem hnone

/-- Pass-level form of the missing-clip panic: a joined entity whose
animation set has no `Fly` clip makes the pass fail at the clip
`unwrap`. -/
theorem animationStartPass_clip_missing {w : World} {e : Nat}
    {aset : AnimationSet} (hmem : (e, aset) ∈ w.joinAnimated)
    (hmiss : aset.get AnimationId.Fly = none) :
    animationStartPass w = Except.error Panic.clipUnwrap := by
  unfold animationStartPass
  rw [runPass_clip_missing w.nextEntity w.joinAnimated w.control_sets
    (joinAnimated_keys_lt w) e aset hmem hmiss]
  rfl

end Lemmas

/-- C3: for every tick at which the progress tracker still reports
outstanding load operations, `Loading::update` returns no transition; in
particular it never switches to the running state while operations are
outstanding. -/
theorem loading_no_transition_before_completion (s0 : Loading)
    (w0 : World) (h : Handle) (outs : Nat → Nat) (n : Nat)
    (hn : outs n ≠ 0) :
    loadingDecisionAt s0 w0 h outs n = Except.ok SimpleTrans.none ∧
    ∀ e, loadingDecisionAt s0 w0 h outs n ≠
      Except.ok (SimpleTrans.switch e) := by
  have hdec : loadingDecisionAt s0 w0 h outs n =
      Except.ok SimpleTrans.none := by
    simp [loadingDecisionAt, Loading.update, Loading.on_start,
      ProgressCounter.is_complete, hn]
  exact ⟨hdec, fun e hcontra => by
    rw [hdec] at hcontra
    exact SimpleTrans.noConfusion (Except.ok.inj hcontra)⟩

theorem loading_no_transition_before_completion_witness :
    loadingDecisionAt Loading.default exampleWorld 9 (fun _ => 1) 0 =
      Except.ok SimpleTrans.none :=
  (loading_no_transition_before_completion Loading.default exampleWorld 9
    (fun _ => 1) 0 (by decide)).1

/-- C2: at the first tick at which the progress tracker reports
completion, `Loading::update` returns the decision to switch to the
running state, carrying exactly the handle captured at
`Loading::on_start`; at every strictly earlier tick it returned no
transition. -/
theorem loading_switches_at_first_completion (s0 : Loading) (w0 : World)
    (h : Handle) (outs : Nat → Nat) (n : Nat) (hn : outs n = 0)
    (hbefore : ∀ m < n, outs m ≠ 0) :
    loadingDecisionAt s0 w0 h outs n =
      Except.ok (SimpleTrans.switch ⟨h⟩) ∧
    ∀ m < n, loadingDecisionAt s0 w0 h outs m =
      Except.ok SimpleTrans.none := by
  constructor
  · simp [loadingDecisionAt, Loading.update, Loading.on_start,
      ProgressCounter.is_complete, hn]
  · intro m hm
    simp [loadingDecisionAt, Loading.update, Loading.on_start,
      ProgressCounter.is_complete, hbefore m hm]

theorem loading_switches_at_first_completion_witness :
    loadingDecisionAt Loading.default exampleWorld 9 (fun m => 1 - m) 1 =
      Except.ok (SimpleTrans.switch ⟨9⟩) ∧
    loadingDecisionAt Loading.default exampleWorld 9 (fun m => 1 - m) 0 =
      Except.ok SimpleTrans.none :=
  have hall := loading_switches_at_first_completion Loading.default
    exampleWorld 9 (fun m => 1 - m) 1 (by decide) (by decide)
  ⟨hall.1, hall.2 0 (by decide)⟩

/-- C7: if the progress tracker reports completion but the prefab handle
slot was never filled, `Loading::update` aborts at the `expect` — an
invariant violation, not a recoverable condition. -/
theorem complete_without_handle_panics (p : ProgressCounter)
    (hc : p.is_complete = true) :
    Loading.update ⟨p, none⟩ = Except.error Panic.expectPrefabHandle := by
  simp [Loading.update, hc]

theorem complete_without_handle_panics_witness :
    Loading.update ⟨⟨0⟩, none⟩ = Except.error Panic.expectPrefabHandle :=
  complete_without_handle_panics ⟨0⟩ (by decide)

/-- C8: `Example::update` always returns no transition, and iterating the
state machine any number of ticks from the running state stays in exactly
that running state — the running state is terminal. -/
theorem running_state_terminal (e : Example) (k : Nat) :
    Example.update e = SimpleTrans.none ∧
    runningStep^[k] (AppState.running e) = AppState.running e := by
  refine ⟨rfl, ?_⟩
  induction k with
  | zero => rfl
  | succ k ih =>
    rw [Function.iterate_succ_apply,
      show runningStep (AppState.running e) = AppState.running e from rfl,
      ih]

/-- C4: after a successful `Example::on_start` on a world with no camera,
exactly one camera entity exists; its projection is orthographic with
bounds `[0, width] × [0, height]` taken from the current viewport
dimensions, and its transform is the default transform with depth offset
`1` along the view axis. -/
theorem on_start_creates_unique_camera (s : Example) (w w' : World)
    (hcam : w.cameras = [])
    (hok : Example.on_start s w = Except.ok w') :
    w'.cameras = [(w.nextEntity,
      Camera.from
        (Projection.orthographic 0 w.dims.width 0 w.dims.height))] ∧
    w'.transforms.lookup w.nextEntity =
      some (Transform.default.set_translation_z 1) ∧
    (Transform.default.set_translation_z 1).translation_z = 1 := by
  rw [on_start_eq] at hok
  obtain ⟨-, -, htr, hcams, -, -, -⟩ := animationStartPass_ok_elim hok
  refine ⟨?_, ?_, rfl⟩
  · simp [hcams, hcam]
  · simp [htr, List.lookup_cons]

theorem on_start_creates_unique_camera_witness :
    exampleWorldAfter.cameras = [(exampleWorld.nextEntity,
      Camera.from (Projection.orthographic 0 exampleWorld.dims.width 0
        exampleWorld.dims.height))] ∧
    exampleWorldAfter.transforms.lookup exampleWorld.nextEntity =
      some (Transform.default.set_translation_z 1) ∧
    (Transform.default.set_translation_z 1).translation_z = 1 :=
  on_start_creates_unique_camera ⟨42⟩ exampleWorld exampleWorldAfter rfl
    rfl

/-- C5: after a successful `Example::on_start` on a world with no prefab
handle component, exactly one scene entity exists, carrying the resolved
prefab handle; the whole run creates exactly two entities (`on_start`
allocates exactly two fresh ids, and `Loading::on_start` touches no
entity) and destroys none (every previously live entity stays live). -/
theorem on_start_creates_unique_scene_entity (s : Example) (w w' : World)
    (hpre : w.prefab_handles = [])
    (hok : Example.on_start s w = Except.ok w') :
    w'.prefab_handles = [(w.nextEntity + 1, s.prefab_handle)] ∧
    w'.nextEntity = w.nextEntity + 2 ∧
    (∀ s0 h0, (Loading.on_start s0 w h0).2 = w) ∧
    (∀ e, w.isAlive e = true → w'.isAlive e = true) := by
  rw [on_start_eq] at hok
  obtain ⟨-, hne, -, -, hpf, -, -⟩ := animationStartPass_ok_elim hok
  refine ⟨by simp [hpf, hpre], by simp [hne], fun s0 h0 => rfl, ?_⟩
  intro e he
  simp only [World.isAlive, decide_eq_true_eq] at he ⊢
  have hne' : w'.nextEntity = w.nextEntity + 2 := by simp [hne]
  omega

theorem on_start_creates_unique_scene_entity_witness :
    exampleWorldAfter.prefab_handles = [(2, 42)] ∧
    exampleWorldAfter.nextEntity = 3 ∧
    (Loading.on_start Loading.default exampleWorld 9).2 = exampleWorld ∧
    exampleWorldAfter.isAlive 0 = true :=
  have hall := on_start_creates_unique_scene_entity ⟨42⟩ exampleWorld
    exampleWorldAfter rfl rfl
  ⟨hall.1, hall.2.1, hall.2.2.1 Loading.default 9, hall.2.2.2 0 rfl⟩

/-- C6: if some live entity's animation set lacks the clip keyed by the
fixed identifier `Fly`, `Example::on_start` panics at the clip `unwrap`
during the animation-start pass — a fatal content error. -/
theorem missing_fly_clip_panics (s : Example) (w : World) (e : Nat)
    (aset : AnimationSet)
    (hwf : ∀ p ∈ w.animation_sets, p.1 < w.nextEntity)
    (hmem : (e, aset) ∈ w.animation_sets)
    (hmiss : aset.get AnimationId.Fly = none) :
    Example.on_start s w = Except.error Panic.clipUnwrap := by
  rw [on_start_eq]
  refine animationStartPass_clip_missing (mem_joinAnimated.mpr
    ⟨hmem, ?_⟩) hmiss
  show e < w.nextEntity + 2
  have := hwf (e, aset) hmem
  omega

theorem missing_fly_clip_panics_witness :
    Example.on_start ⟨42⟩ noFlyWorld = Except.error Panic.clipUnwrap :=
  missing_fly_clip_panics ⟨42⟩ noFlyWorld 0 ⟨[]⟩ (by decide) (by decide)
    rfl

/-- C9: the animation-start pass modifies only the control sets of
entities that carry an animation set: every other component table (and
the entity counter and viewport) is left exactly as it was, and the
control-set lookup of any entity without an animation set is unchanged. -/
theorem animation_pass_frame_effect (w w' : World)
    (hok : animationStartPass w = Except.ok w') :
    w'.nextEntity = w.nextEntity ∧ w'.transforms = w.transforms ∧
    w'.cameras = w.cameras ∧ w'.prefab_handles = w.prefab_handles ∧
    w'.animation_sets = w.animation_sets ∧ w'.dims = w.dims ∧
    ∀ e, w.animation_sets.lookup e = none →
      w'.control_sets.lookup e = w.control_sets.lookup e := by
  obtain ⟨hr, hne, htr, hcam, hpf, has, hd⟩ :=
    animationStartPass_ok_elim hok
  refine ⟨hne, htr, hcam, hpf, has, hd, ?_⟩
  intro e hnone
  refine runPass_preserve w.nextEntity _ _ _ hr e ?_
  intro hcontra
  rcases List.mem_map.mp hcontra with ⟨⟨e1, aset⟩, hp, hfst⟩
  cases hfst
  have hmem' := (mem_joinAnimated.mp hp).1
  have hsome := mem_lookup_isSome e1 aset w.animation_sets hmem'
  rw [hnone] at hsome
  simp at hsome

theorem animation_pass_frame_effect_witness :
    examplePassWorld.nextEntity = exampleWorld.nextEntity ∧
    examplePassWorld.transforms = exampleWorld.transforms ∧
    examplePassWorld.cameras = exampleWorld.cameras ∧
    examplePassWorld.prefab_handles = exampleWorld.prefab_handles ∧
    examplePassWorld.animation_sets = exampleWorld.animation_sets ∧
    examplePassWorld.dims = exampleWorld.dims ∧
    examplePassWorld.control_sets.lookup 5 =
      exampleWorld.control_sets.lookup 5 :=
  have hall := animation_pass_frame_effect exampleWorld examplePassWorld
    rfl
  ⟨hall.1, hall.2.1, hall.2.2.1, hall.2.2.2.1, hall.2.2.2.2.1,
    hall.2.2.2.2.2.1, hall.2.2.2.2.2.2 5 rfl⟩

/-- C10: for any entity yielded by the join over live entities with
animation sets, obtaining-or-creating its control set succeeds
(`get_animation_set` returns `some`), so the pass never panics at that
`unwrap`. -/
theorem get_animation_set_some_on_join (w : World) (e : Nat)
    (aset : AnimationSet) (hmem : (e, aset) ∈ w.joinAnimated) :
    (get_animation_set w.nextEntity w.control_sets e).isSome = true ∧
    animationStartPass w ≠ Except.error Panic.controlSetUnwrap := by
  constructor
  · have he := (mem_joinAnimated.mp hmem).2
    simp [get_animation_set, he]
  · intro hcontra
    have hnever := runPass_ne_controlSetUnwrap w.nextEntity w.joinAnimated
      w.control_sets (joinAnimated_keys_lt w)
    cases hr : runPass w.nextEntity w.joinAnimated w.control_sets with
    | error p =>
      simp only [animationStartPass, hr, Except.map,
        Except.error.injEq] at hcontra
      exact hnever (by rw [hr, hcontra])
    | ok cs =>
      simp [animationStartPass, hr, Except.map] at hcontra

theorem get_animation_set_some_on_join_witness :
    (get_animation_set exampleWorld.nextEntity exampleWorld.control_sets
      0).isSome = true ∧
    animationStartPass exampleWorld ≠
      Except.error Panic.controlSetUnwrap :=
  get_animation_set_some_on_join exampleWorld 0
    ⟨[(AnimationId.Fly, 7)]⟩ (by decide)

/-- C1: after a successful animation-start pass in `Example::on_start`
(starting from a well-formed world with no control sets yet), every
entity carrying an animation set also carries an animation control set
containing exactly one active entry: the clip keyed by the fixed
identifier `Fly`, with loop-forever end behavior, playback rate `1`, and
a `Start` command. -/
theorem animation_pass_starts_fly_on_all_animated (s : Example)
    (w w' : World)
    (hwf : ∀ p ∈ w.animation_sets, p.1 < w.nextEntity)
    (hnd : (w.animation_sets.map Prod.fst).Nodup)
    (hcs : w.control_sets = [])
    (hok : Example.on_start s w = Except.ok w') :
    ∀ e aset, (e, aset) ∈ w'.animation_sets →
      ∃ clip, aset.get AnimationId.Fly = some clip ∧
        w'.control_sets.lookup e =
          some ⟨[⟨AnimationId.Fly, clip, EndControl.loop none, 1,
            AnimationCommand.start⟩]⟩ := by
  rw [on_start_eq] at hok
  refine animationStartPass_starts_all ?_ ?_ ?_ hok
  · intro p hp
    show p.1 < w.nextEntity + 2
    have := hwf p hp
    omega
  · exact hnd
  · exact hcs

theorem animation_pass_starts_fly_on_all_animated_witness :
    exampleWorldAfter.control_sets.lookup 0 =
      some ⟨[⟨AnimationId.Fly, 7, EndControl.loop none, 1,
        AnimationCommand.start⟩]⟩ := by
  obtain ⟨clip, hclip, hlook⟩ :=
    animation_pass_starts_fly_on_all_animated ⟨42⟩ exampleWorld
      exampleWorldAfter (by decide) (by decide) rfl rfl 0
      ⟨[(AnimationId.Fly, 7)]⟩ (by decide)
  have h7 : some (7 : Handle) = some clip :=
    (rfl :
      AnimationSet.get ⟨[(AnimationId.Fly, 7)]⟩ AnimationId.Fly =
        some 7).symm.trans hclip
  injection h7 with h7e
  subst h7e
  exact hlook

end SpriteAnimation
